import Mathlib

/-!
Verification of the event-loop / batch-processing driver of
`analyzeHgcalL1Tntuple.py` (ntuple-analysis).

The development shallowly embeds the driver logic of the script:
the protocol-prefixing of input file paths, the event loop of `analyze`
(plotter invocation, periodic histogram flushing, the time-budget guard,
the exception handler), the exit-code selection of `main` / `__main__`,
and the dynamic-attribute behaviour of the `Parameters` class.
The `TreeReader` cursor (module `python/tree_reader.py`) and the
`timecounter` singleton (module `python/timecounter.py`) are not part of
the sources; where their behaviour matters they are modelled from the
specification, as noted in the corresponding doc comments.
-/

/- ===================== TreeReader / EventReader model ===================== -/

/-- Cursor state of the event reader: the row counts of the current and the
remaining files of the assignment, the local row index inside the head file
(`file_entry`), and the number of events yielded so far (`global_entry`). -/
structure TreeReaderState where
  files : List Nat
  file_entry : Nat
  global_entry : Nat
deriving Repr, DecidableEq

/-- Modelled from the spec: `python/tree_reader.py` is not among the sources.
Skips exhausted (or empty) files until a file with an unread row is found,
returning the remaining file list and the local row index to read, or `none`
when the assignment has no unread row left. Crossing a file boundary resets
the local row index to 0. -/
def TreeReader.seekRow : List Nat → Nat → Option (List Nat × Nat)
  | [], _ => none
  | n :: rest, i => if i < n then some (n :: rest, i) else TreeReader.seekRow rest 0

/-- Modelled from the spec: `python/tree_reader.py` (method `TreeReader.next`,
called from the driver loop) is not among the sources.  `advance()` returns
false exactly when the global cap has been reached or no further rows remain;
otherwise it advances exactly one event (transparently crossing file
boundaries) and returns true.  `none` models a false return. -/
def TreeReader.next (cap : Nat) (s : TreeReaderState) : Option TreeReaderState :=
  if cap ≤ s.global_entry then none
  else
    match TreeReader.seekRow s.files s.file_entry with
    | none => none
    | some (fs, i) => some ⟨fs, i + 1, s.global_entry + 1⟩

/-- Repeatedly calls `TreeReader.next`, recording the global index of every
event yielded by a true-returning advance; `fuel` bounds the number of calls. -/
def TreeReader.run (cap : Nat) : Nat → TreeReaderState → List Nat
  | 0, _ => []
  | fuel + 1, s =>
    match TreeReader.next cap s with
    | none => []
    | some s2 => s.global_entry :: TreeReader.run cap fuel s2

/-- Number of unread rows in a cursor position. -/
def TreeReader.avail : List Nat → Nat → Nat
  | [], _ => 0
  | n :: rest, i => (n - i) + rest.sum

/-- Well-formedness of a cursor position: the local index does not run past
the head file. -/
def TreeReader.Wf : List Nat → Nat → Prop
  | [], _ => True
  | n :: _, i => i ≤ n

/- ===================== Protocol prefixing (lines 209-216) ===================== -/

/-- Python `s.startswith(pat)` on character lists: `pat` is an initial
segment of `s`. -/
def startsWith : List Char → List Char → Bool
  | _, [] => true
  | [], _ :: _ => false
  | c :: s, p :: ps => c == p && startsWith s ps

/-- Python `pat in s` (substring containment) on character lists. -/
def containsSubstr (pat : List Char) : List Char → Bool
  | [] => startsWith [] pat
  | c :: rest => startsWith (c :: rest) pat || containsSubstr pat rest

def eosUserPat : List Char := "/eos/user/".toList

def eosCmsPat : List Char := "/eos/cms/".toList

def eosUserProtocol : List Char := "root://eosuser.cern.ch/".toList

def eosCmsProtocol : List Char := "root://eoscms.cern.ch/".toList

/-- Lines 210-216 of `analyzeHgcalL1Tntuple.py`, body of the
`for file_name in input_files` loop: choose the protocol by substring
tests on the file name and prepend it. -/
def addProtocol (file_name : List Char) : List Char :=
  if containsSubstr eosUserPat file_name then eosUserProtocol ++ file_name
  else if containsSubstr eosCmsPat file_name then eosCmsProtocol ++ file_name
  else file_name

/-- Lines 209-216: build `files_with_protocol` by appending the prefixed
name of each input file in order. -/
def filesWithProtocol : List (List Char) → List (List Char)
  | [] => []
  | f :: rest => addProtocol f :: filesWithProtocol rest

/- ===================== Time counter (timecounter singleton) ===================== -/

/-- Modelled from the spec: `python/timecounter.py` is not among the sources;
per the spec the guard's only state is the start timestamp, set once, and
`started()` reports whether `start()` has been called.  `__main__`
(lines 537-539) calls `timecounter.counter.start()` exactly when the string
`'3.8'` occurs in `platform.python_version()`, so the timer is started in a
run exactly when the interpreter version string contains `'3.8'`. -/
def timerStarted (version : List Char) : Bool := containsSubstr "3.8".toList version

/- ===================== Event-loop driver (analyze, lines 250-303) ===================== -/

/-- Observable actions of one run of the event loop of `analyze`. -/
inductive DriverAction where
  /-- `collection_manager.read(tree_reader, debug)` for the event with
  global counter `g` (line 259). -/
  | read : Nat → DriverAction
  /-- `plotter.fill_histos_event(...)` of the plotter at registration
  position `p` for the event with global counter `g` (lines 261-262). -/
  | fill : Nat → Nat → DriverAction
  /-- `hm.writeHistos()` inside the loop (line 274). -/
  | flush : DriverAction
  /-- Evaluation of the time-budget guard condition for the event with
  global counter `g` (line 276); in the code this evaluates `event.entry()`
  where the name `event` is unbound, raising `NameError`. -/
  | guardEval : Nat → DriverAction
  /-- `tree_reader.printEntry()` in the `except` handler (line 287). -/
  | report : Nat → DriverAction
  /-- The final `hm.writeHistos()` after the loop (line 298). -/
  | finalFlush : DriverAction
  /-- `output.Close()` (line 300). -/
  | close : DriverAction
deriving Repr, DecidableEq

/-- Configuration of one `analyze` run: number of registered plotters,
the batch index (`-1` means interactive), whether the `timecounter`
singleton was started, and which global event counters make
`collection_manager.read` or a plotter raise an exception. -/
structure DriverCfg where
  nPlotters : Nat
  batch_idx : Int
  started : Bool
  failsAt : Nat → Bool

/-- One iteration of the `while tree_reader.next(debug)` body
(lines 256-291) for the event with global counter `g`: the actions
performed and, when `sys.exit` is reached, the exit code.

If `collection_manager.read` or a plotter raises, the `except` handler
(lines 286-291) prints the current entry and calls `sys.exit(200)`.
Otherwise the read and the plotter fills happen in registration order,
then `hm.writeHistos()` runs when `tree_reader.global_entry != 0 and
tree_reader.global_entry % 1000 == 0` (line 272).  Then the guard of
line 276 is evaluated: when `batch_idx != -1` and the counter is started,
its third conjunct evaluates `event.entry()`, but the name `event` is
unbound in `analyze`, so a `NameError` is raised; it is caught by the same
`except` handler, which prints the entry and exits with code 200 — the
time-left comparison and the `break` of lines 278-282 are unreachable. -/
def loopBody (cfg : DriverCfg) (g : Nat) : List DriverAction × Option Nat :=
  if cfg.failsAt g then
    ([DriverAction.report g], some 200)
  else
    let acts := DriverAction.read g :: ((List.range cfg.nPlotters).map (fun p => DriverAction.fill g p)
      ++ (if g ≠ 0 ∧ g % 1000 = 0 then [DriverAction.flush] else []))
    if cfg.batch_idx ≠ -1 ∧ cfg.started = true then
      (acts ++ [DriverAction.guardEval g, DriverAction.report g], some 200)
    else
      (acts, none)

/-- The actions of a normally completing iteration (no exception raised):
the collection read, the plotter fills in registration order, and the
periodic flush when the global counter is a nonzero multiple of 1000. -/
def eventBlock (cfg : DriverCfg) (g : Nat) : List DriverAction :=
  DriverAction.read g :: ((List.range cfg.nPlotters).map (fun p => DriverAction.fill g p)
    ++ (if g ≠ 0 ∧ g % 1000 = 0 then [DriverAction.flush] else []))

/-- The event loop over the sequence of global counters of the events the
reader yields: runs `loopBody` on each event in order, stopping at the
first iteration that reaches `sys.exit`. -/
def runLoop (cfg : DriverCfg) : List Nat → List DriverAction × Option Nat
  | [] => ([], none)
  | g :: rest =>
    match loopBody cfg g with
    | (acts, some c) => (acts, some c)
    | (acts, none) =>
      ((acts ++ (runLoop cfg rest).1), (runLoop cfg rest).2)

/-- The whole of `analyze` after the loop (lines 295-303): when the loop was
not aborted by `sys.exit`, the final `hm.writeHistos()` runs and the output
file is closed; an exit code of `none` means `analyze` returns normally. -/
def runDriver (cfg : DriverCfg) (events : List Nat) : List DriverAction × Option Nat :=
  match runLoop cfg events with
  | (acts, some c) => (acts, some c)
  | (acts, none) => ((acts ++ [DriverAction.finalFlush, DriverAction.close]), none)

/-- Recognises the in-loop flush action. -/
def DriverAction.isFlush : DriverAction → Bool
  | DriverAction.flush => true
  | _ => false

/-- Recognises a plotter-fill action for the event with global counter `g`. -/
def DriverAction.isFillOf (g : Nat) : DriverAction → Bool
  | DriverAction.fill g2 _ => g2 == g
  | _ => false

/-- Recognises a guard-evaluation action. -/
def DriverAction.isGuardEval : DriverAction → Bool
  | DriverAction.guardEval _ => true
  | _ => false

/- ===================== Exit-code selection (main / __main__) ===================== -/

/-- Outcome of the processing phase (`analyze` over the selected samples). -/
inductive ProcOutcome where
  /-- Every event is processed without an exception. -/
  | ok : ProcOutcome
  /-- An exception is raised while reading the collections or while a
  plotter processes an event: `analyze` calls `sys.exit(200)` (line 291). -/
  | procError : ProcOutcome
deriving Repr, DecidableEq

/-- Exit code of the process, from `main` (lines 355-374) and `__main__`
(lines 541-548): with no collection option the available collections are
printed and the process exits 0; an unknown collection exits 10 (line 371);
with a known collection and no sample option the samples are printed and
the process exits 0 (line 368); sample `'all'` or a known sample proceeds
to processing, whose exception exits 200 and whose success falls through
to a normal exit 0; an unknown sample makes `sel_sample[0]` (line 364)
raise `IndexError`, caught by the `__main__` handler which exits 100
(line 548). -/
def mainExitCode (available : List String) (collSamples : List String)
    (optColl : Option String) (optSample : Option String) (proc : ProcOutcome) : Nat :=
  match optColl with
  | none => 0
  | some coll =>
    if available.contains coll then
      match optSample with
      | none => 0
      | some sample =>
        if sample = "all" then
          match proc with
          | ProcOutcome.ok => 0
          | ProcOutcome.procError => 200
        else if collSamples.contains sample then
          match proc with
          | ProcOutcome.ok => 0
          | ProcOutcome.procError => 200
        else 100
    else 10

/- ===================== Parameters (lines 61-64) ===================== -/

/-- Python exceptions relevant to `Parameters` attribute access. -/
inductive PyError where
  | keyError : String → PyError
  | attributeError : String → PyError
deriving Repr, DecidableEq

/-- First-match association-list lookup, the stored-key/value view of a
Python `dict`. -/
def dictLookup {V : Type} : List (String × V) → String → Option V
  | [], _ => none
  | (k, v) :: rest, key => if k = key then some v else dictLookup rest key

/-- Python `dict.__getitem__`: the stored value for a stored key, and a
`KeyError` naming the key otherwise. -/
def dict_getitem {V : Type} (d : List (String × V)) (key : String) : Except PyError V :=
  match dictLookup d key with
  | some v => Except.ok v
  | none => Except.error (PyError.keyError key)

/-- `Parameters.__getattr__` (lines 63-64): `return self[name]` — attribute
access on a `Parameters` object for a name that is not a real attribute
delegates to dictionary item access, so a missing name raises the
dictionary's `KeyError`, not `AttributeError`. -/
def Parameters.getattr {V : Type} (d : List (String × V)) (name : String) : Except PyError V :=
  dict_getitem d name

theorem TreeReader.avail_zero (fs : List Nat) : TreeReader.avail fs 0 = fs.sum := by
  cases fs <;> simp [TreeReader.avail]

theorem TreeReader.wf_zero (fs : List Nat) : TreeReader.Wf fs 0 := by
  cases fs <;> simp [TreeReader.Wf]

theorem TreeReader.seekRow_none {fs : List Nat} {i : Nat}
    (hwf : TreeReader.Wf fs i) (h : TreeReader.seekRow fs i = none) :
    TreeReader.avail fs i = 0 := by
  induction fs generalizing i with
  | nil => simp [TreeReader.avail]
  | cons n rest ih =>
    by_cases hi : i < n
    · simp [TreeReader.seekRow, hi] at h
    · simp only [TreeReader.seekRow, if_neg hi] at h
      have hrest := ih (TreeReader.wf_zero rest) h
      rw [TreeReader.avail_zero] at hrest
      have hin : i = n := Nat.le_antisymm hwf (Nat.le_of_not_lt hi)
      simp [TreeReader.avail, hin, hrest]

theorem TreeReader.seekRow_some {fs fs2 : List Nat} {i j : Nat}
    (hwf : TreeReader.Wf fs i) (h : TreeReader.seekRow fs i = some (fs2, j)) :
    TreeReader.avail fs i = TreeReader.avail fs2 (j + 1) + 1 ∧
      TreeReader.Wf fs2 (j + 1) := by
  induction fs generalizing i with
  | nil => simp [TreeReader.seekRow] at h
  | cons n rest ih =>
    by_cases hi : i < n
    · simp only [TreeReader.seekRow, if_pos hi, Option.some.injEq, Prod.mk.injEq] at h
      obtain ⟨hfs, hj⟩ := h
      subst hfs; subst hj
      constructor
      · simp only [TreeReader.avail]
        omega
      · exact hi
    · simp only [TreeReader.seekRow, if_neg hi] at h
      have hrest := ih (TreeReader.wf_zero rest) h
      have hin : i = n := Nat.le_antisymm hwf (Nat.le_of_not_lt hi)
      refine ⟨?_, hrest.2⟩
      have : TreeReader.avail rest 0 = TreeReader.avail fs2 (j + 1) + 1 := hrest.1
      rw [TreeReader.avail_zero] at this
      simp [TreeReader.avail, hin, this]

theorem TreeReader.run_eq (cap : Nat) :
    ∀ (fuel : Nat) (s : TreeReaderState), TreeReader.Wf s.files s.file_entry →
      min (cap - s.global_entry) (TreeReader.avail s.files s.file_entry) ≤ fuel →
      TreeReader.run cap fuel s =
        List.range' s.global_entry
          (min (cap - s.global_entry) (TreeReader.avail s.files s.file_entry)) := by
  intro fuel
  induction fuel with
  | zero =>
    intro s hwf hle
    have h0 : min (cap - s.global_entry) (TreeReader.avail s.files s.file_entry) = 0 :=
      Nat.le_zero.mp hle
    simp [TreeReader.run, h0]
  | succ fuel ih =>
    intro s hwf hle
    by_cases hcap : cap ≤ s.global_entry
    · have h0 : cap - s.global_entry = 0 := Nat.sub_eq_zero_of_le hcap
      simp [TreeReader.run, TreeReader.next, hcap, h0]
    · have hgl : s.global_entry < cap := Nat.lt_of_not_le hcap
      cases hseek : TreeReader.seekRow s.files s.file_entry with
      | none =>
        have ha : TreeReader.avail s.files s.file_entry = 0 :=
          TreeReader.seekRow_none hwf hseek
        simp [TreeReader.run, TreeReader.next, hcap, hseek, ha]
      | some p =>
        obtain ⟨fs2, j⟩ := p
        obtain ⟨ha, hwf2⟩ := TreeReader.seekRow_some hwf hseek
        have hrun : TreeReader.run cap (fuel + 1) s =
            s.global_entry :: TreeReader.run cap fuel ⟨fs2, j + 1, s.global_entry + 1⟩ := by
          simp [TreeReader.run, TreeReader.next, hcap, hseek]
        rw [hrun]
        have hm2 : min (cap - (s.global_entry + 1)) (TreeReader.avail fs2 (j + 1)) =
            min (cap - s.global_entry) (TreeReader.avail s.files s.file_entry) - 1 := by
          omega
        have hle2 : min (cap - (s.global_entry + 1)) (TreeReader.avail fs2 (j + 1)) ≤ fuel := by
          omega
        rw [ih ⟨fs2, j + 1, s.global_entry + 1⟩ hwf2 hle2]
        have hmpos : 1 ≤ min (cap - s.global_entry) (TreeReader.avail s.files s.file_entry) := by
          omega
        simp only [hm2]
        rw [show min (cap - s.global_entry) (TreeReader.avail s.files s.file_entry) =
          (min (cap - s.global_entry) (TreeReader.avail s.files s.file_entry) - 1) + 1 by omega]
        rw [List.range'_succ]
        simp

theorem loopBody_normal (cfg : DriverCfg) (g : Nat) (hf : cfg.failsAt g = false)
    (hb : ¬(cfg.batch_idx ≠ -1 ∧ cfg.started = true)) :
    loopBody cfg g = (eventBlock cfg g, none) := by
  simp [loopBody, eventBlock, hf, hb]

theorem runLoop_flatMap (cfg : DriverCfg) :
    ∀ events : List Nat, (∀ g ∈ events, cfg.failsAt g = false) →
      ¬(cfg.batch_idx ≠ -1 ∧ cfg.started = true) →
      runLoop cfg events = (events.flatMap (eventBlock cfg), none) := by
  intro events
  induction events with
  | nil => intro _ _; simp [runLoop]
  | cons g rest ih =>
    intro hf hb
    have hg : cfg.failsAt g = false := hf g (List.mem_cons_self g rest)
    have hrest := ih (fun x hx => hf x (List.mem_cons_of_mem g hx)) hb
    simp [runLoop, loopBody_normal cfg g hg hb, hrest]

theorem eventBlock_no_close (cfg : DriverCfg) (g : Nat) :
    DriverAction.close ∉ eventBlock cfg g := by
  intro h
  simp only [eventBlock, List.mem_cons, List.mem_append, List.mem_map] at h
  rcases h with h | h | h
  · exact DriverAction.noConfusion h
  · obtain ⟨p, _, hp⟩ := h
    exact DriverAction.noConfusion hp
  · by_cases hc : g ≠ 0 ∧ g % 1000 = 0
    · rw [if_pos hc] at h
      simp at h
    · rw [if_neg hc] at h
      simp at h

theorem eventBlock_no_finalFlush (cfg : DriverCfg) (g : Nat) :
    DriverAction.finalFlush ∉ eventBlock cfg g := by
  intro h
  simp only [eventBlock, List.mem_cons, List.mem_append, List.mem_map] at h
  rcases h with h | h | h
  · exact DriverAction.noConfusion h
  · obtain ⟨p, _, hp⟩ := h
    exact DriverAction.noConfusion hp
  · by_cases hc : g ≠ 0 ∧ g % 1000 = 0
    · rw [if_pos hc] at h
      simp at h
    · rw [if_neg hc] at h
      simp at h

theorem eventBlock_countP_flush (cfg : DriverCfg) (g : Nat) :
    (eventBlock cfg g).countP DriverAction.isFlush =
      if g ≠ 0 ∧ g % 1000 = 0 then 1 else 0 := by
  have hmap : ((List.range cfg.nPlotters).map (fun p => DriverAction.fill g p)).countP
      DriverAction.isFlush = 0 := by
    rw [List.countP_eq_zero]
    intro a ha
    rw [List.mem_map] at ha
    obtain ⟨p, _, rfl⟩ := ha
    simp [DriverAction.isFlush]
  by_cases hc : g ≠ 0 ∧ g % 1000 = 0
  · simp [eventBlock, if_pos hc, List.countP_cons, List.countP_append, hmap,
      DriverAction.isFlush]
  · simp [eventBlock, if_neg hc, List.countP_cons, List.countP_append, hmap,
      DriverAction.isFlush]

theorem flatMap_countP_flush (cfg : DriverCfg) (events : List Nat) :
    (events.flatMap (eventBlock cfg)).countP DriverAction.isFlush =
      events.countP (fun g => decide (g ≠ 0 ∧ g % 1000 = 0)) := by
  induction events with
  | nil => simp
  | cons g rest ih =>
    rw [List.flatMap_cons, List.countP_append, ih, List.countP_cons,
      eventBlock_countP_flush]
    by_cases hc : g ≠ 0 ∧ g % 1000 = 0
    · simp [hc]
      omega
    · simp [hc]

/-- C2: in a batch run (job index 0) with the timer started, the event loop
does not stop gracefully when the time budget runs low: on the very first
event the guard of line 276 evaluates `event.entry()` where `event` is
unbound, the resulting `NameError` is caught by the generic handler, and the
process exits with code 200 — not 0 — before the time-left comparison is
ever made, leaving the remaining events unprocessed. -/
theorem C2_batch_guard_fatal :
    runDriver ⟨2, 0, true, fun _ => false⟩ [0, 1, 2] =
      ([DriverAction.read 0, DriverAction.fill 0 0, DriverAction.fill 0 1,
        DriverAction.guardEval 0, DriverAction.report 0], some 200) ∧
    (runDriver ⟨2, 0, true, fun _ => false⟩ [0, 1, 2]).2 ≠ none ∧
    (runDriver ⟨2, 0, true, fun _ => false⟩ [0, 1, 2]).2 ≠ some 0 := by
  refine ⟨by decide, by decide, by decide⟩

/-- C3: in a batch run with the timer started, the time-budget condition of
line 276 is not evaluated only on events whose counter is a multiple of 100,
and its evaluation is not error-free: already for the event with global
counter 7 the third conjunct evaluates the unbound name `event`, raising a
`NameError` that aborts the run with exit code 200. -/
theorem C3_guard_eval_raises :
    runDriver ⟨1, 3, true, fun _ => false⟩ [7] =
      ([DriverAction.read 7, DriverAction.fill 7 0, DriverAction.guardEval 7,
        DriverAction.report 7], some 200) ∧
    DriverAction.guardEval 7 ∈ (runDriver ⟨1, 3, true, fun _ => false⟩ [7]).1 ∧
    ¬(7 % 100 = 0) := by
  refine ⟨by decide, by decide, by decide⟩

/-- C4: in an event loop that is not aborted (no processing exception and no
fatal batch-mode guard evaluation), the in-loop histogram write of line 274
happens exactly for the events whose global counter is a nonzero multiple of
1000, the output file is never closed inside the loop, and the run completes
normally so that reading resumes after each flush. -/
theorem C4_flush_every_1000 (cfg : DriverCfg) (events : List Nat)
    (hf : ∀ g ∈ events, cfg.failsAt g = false)
    (hb : ¬(cfg.batch_idx ≠ -1 ∧ cfg.started = true)) :
    (runLoop cfg events).1.countP DriverAction.isFlush =
      events.countP (fun g => decide (g ≠ 0 ∧ g % 1000 = 0)) ∧
    DriverAction.close ∉ (runLoop cfg events).1 ∧
    (runDriver cfg events).2 = none := by
  have h := runLoop_flatMap cfg events hf hb
  refine ⟨?_, ?_, ?_⟩
  · rw [h]
    exact flatMap_countP_flush cfg events
  · rw [h]
    intro hmem
    rw [List.mem_flatMap] at hmem
    obtain ⟨g, _, hg⟩ := hmem
    exact eventBlock_no_close cfg g hg
  · simp [runDriver, h]

/-- Witness for C4 at a concrete run crossing the 1000-event threshold. -/
theorem C4_flush_every_1000_witness :
    (runLoop ⟨1, -1, false, fun _ => false⟩ [998, 999, 1000, 1001]).1.countP
        DriverAction.isFlush =
      ([998, 999, 1000, 1001] : List Nat).countP
        (fun g => decide (g ≠ 0 ∧ g % 1000 = 0)) ∧
    DriverAction.close ∉ (runLoop ⟨1, -1, false, fun _ => false⟩ [998, 999, 1000, 1001]).1 ∧
    (runDriver ⟨1, -1, false, fun _ => false⟩ [998, 999, 1000, 1001]).2 = none :=
  C4_flush_every_1000 ⟨1, -1, false, fun _ => false⟩ [998, 999, 1000, 1001]
    (by intro g hg; rfl) (by simp)

theorem runLoop_append (cfg : DriverCfg) (es1 rest : List Nat)
    (hf : ∀ g ∈ es1, cfg.failsAt g = false)
    (hb : ¬(cfg.batch_idx ≠ -1 ∧ cfg.started = true)) :
    runLoop cfg (es1 ++ rest) =
      ((es1.flatMap (eventBlock cfg)) ++ (runLoop cfg rest).1, (runLoop cfg rest).2) := by
  induction es1 with
  | nil => simp [runLoop]
  | cons g gs ih =>
    have hg : cfg.failsAt g = false := hf g (List.mem_cons_self g gs)
    have hgs := ih (fun x hx => hf x (List.mem_cons_of_mem g hx))
    simp [runLoop, loopBody_normal cfg g hg hb, hgs, List.flatMap_cons]

/-- C5: if the collection read or a processing unit raises at the event with
global counter `N`, the `except` handler reports position `N` and the process
exits with the runtime-processing status 200; the final histogram write of
line 298 is skipped and the only in-loop flushes on record are those of the
events completed before `N`, i.e. nothing is flushed past the last completed
1000-event checkpoint. -/
theorem C5_exception_aborts (cfg : DriverCfg) (es1 es2 : List Nat) (N : Nat)
    (hf : ∀ g ∈ es1, cfg.failsAt g = false)
    (hN : cfg.failsAt N = true)
    (hb : ¬(cfg.batch_idx ≠ -1 ∧ cfg.started = true)) :
    runDriver cfg (es1 ++ N :: es2) =
      ((es1.flatMap (eventBlock cfg)) ++ [DriverAction.report N], some 200) ∧
    DriverAction.report N ∈ (runDriver cfg (es1 ++ N :: es2)).1 ∧
    DriverAction.finalFlush ∉ (runDriver cfg (es1 ++ N :: es2)).1 ∧
    (runDriver cfg (es1 ++ N :: es2)).1.countP DriverAction.isFlush =
      es1.countP (fun g => decide (g ≠ 0 ∧ g % 1000 = 0)) := by
  have hN2 : loopBody cfg N = ([DriverAction.report N], some 200) := by
    simp [loopBody, hN]
  have hloop : runLoop cfg (N :: es2) = ([DriverAction.report N], some 200) := by
    simp [runLoop, hN2]
  have happ := runLoop_append cfg es1 (N :: es2) hf hb
  rw [hloop] at happ
  have hdrv : runDriver cfg (es1 ++ N :: es2) =
      ((es1.flatMap (eventBlock cfg)) ++ [DriverAction.report N], some 200) := by
    simp [runDriver, happ]
  refine ⟨hdrv, ?_, ?_, ?_⟩
  · rw [hdrv]
    simp
  · rw [hdrv]
    intro hmem
    simp only [List.mem_append, List.mem_singleton] at hmem
    rcases hmem with hmem | hmem
    · rw [List.mem_flatMap] at hmem
      obtain ⟨g, _, hg⟩ := hmem
      exact eventBlock_no_finalFlush cfg g hg
    · exact DriverAction.noConfusion hmem
  · rw [hdrv]
    simp only [List.countP_append, flatMap_countP_flush]
    simp [List.countP_cons, DriverAction.isFlush]

/-- Witness for C5 at a concrete run failing at event 5. -/
theorem C5_exception_aborts_witness :
    runDriver ⟨1, -1, false, fun g => g == 5⟩ ([0, 1, 2, 3, 4] ++ 5 :: [6, 7]) =
      ((([0, 1, 2, 3, 4] : List Nat).flatMap
          (eventBlock ⟨1, -1, false, fun g => g == 5⟩)) ++ [DriverAction.report 5],
        some 200) ∧
    DriverAction.finalFlush ∉
      (runDriver ⟨1, -1, false, fun g => g == 5⟩ ([0, 1, 2, 3, 4] ++ 5 :: [6, 7])).1 := by
  have h := C5_exception_aborts ⟨1, -1, false, fun g => g == 5⟩ [0, 1, 2, 3, 4] [6, 7] 5
    (by decide) (by decide) (by simp)
  exact ⟨h.1, h.2.2.1⟩

/-- C1: for an assignment whose files hold the given row counts and any cap,
repeatedly calling `advance()` yields true exactly
`min(cap, total_available_rows_in_assignment)` times — also across file
boundaries — and false on every later call (running with more fuel changes
nothing), and no true-returning advance yields an event whose global index
reaches the cap. -/
theorem C1_advance_cap (a : List Nat) (cap fuel : Nat)
    (hfuel : min cap a.sum ≤ fuel) :
    (TreeReader.run cap fuel ⟨a, 0, 0⟩).length = min cap a.sum ∧
    (∀ fuel2, min cap a.sum ≤ fuel2 →
      TreeReader.run cap fuel2 ⟨a, 0, 0⟩ = TreeReader.run cap fuel ⟨a, 0, 0⟩) ∧
    (∀ g ∈ TreeReader.run cap fuel ⟨a, 0, 0⟩, g < cap) := by
  have hrun : ∀ f2, min cap a.sum ≤ f2 →
      TreeReader.run cap f2 ⟨a, 0, 0⟩ = List.range' 0 (min cap a.sum) := by
    intro f2 h2
    have hwf : TreeReader.Wf (⟨a, 0, 0⟩ : TreeReaderState).files
        (⟨a, 0, 0⟩ : TreeReaderState).file_entry := TreeReader.wf_zero a
    have hle : min (cap - (⟨a, 0, 0⟩ : TreeReaderState).global_entry)
        (TreeReader.avail (⟨a, 0, 0⟩ : TreeReaderState).files
          (⟨a, 0, 0⟩ : TreeReaderState).file_entry) ≤ f2 := by
      simpa [TreeReader.avail_zero] using h2
    have h := TreeReader.run_eq cap f2 ⟨a, 0, 0⟩ hwf hle
    simpa [TreeReader.avail_zero] using h
  refine ⟨?_, ?_, ?_⟩
  · rw [hrun fuel hfuel]
    exact List.length_range' 0 1 (min cap a.sum)
  · intro fuel2 h2
    rw [hrun fuel2 h2, hrun fuel hfuel]
  · intro g hg
    rw [hrun fuel hfuel] at hg
    rw [List.mem_range'] at hg
    obtain ⟨i, hi, rfl⟩ := hg
    omega

/-- Witness for C1 on an assignment of two files (2 and 3 rows) with cap 4:
the reader crosses the file boundary and yields exactly 4 events. -/
theorem C1_advance_cap_witness :
    min 4 ([2, 3] : List Nat).sum ≤ 4 ∧
    (TreeReader.run 4 4 ⟨[2, 3], 0, 0⟩).length = min 4 ([2, 3] : List Nat).sum ∧
    TreeReader.run 4 5 ⟨[2, 3], 0, 0⟩ = TreeReader.run 4 4 ⟨[2, 3], 0, 0⟩ :=
  ⟨by decide, (C1_advance_cap [2, 3] 4 4 (by decide)).1,
    (C1_advance_cap [2, 3] 4 4 (by decide)).2.1 5 (by decide)⟩

/-- C6 counterexample: configuration/selection errors do not share one fixed
exit code — an unknown collection exits 10 while an unknown sample name
exits 100 (the `IndexError` of `sel_sample[0]` reaches the generic
`__main__` handler). -/
theorem C6_exit_codes_counterexample :
    mainExitCode ["tps"] ["ele"] (some "nope") none ProcOutcome.ok = 10 ∧
    mainExitCode ["tps"] ["ele"] (some "tps") (some "nope") ProcOutcome.ok = 100 ∧
    mainExitCode ["tps"] ["ele"] (some "nope") none ProcOutcome.ok ≠
      mainExitCode ["tps"] ["ele"] (some "tps") (some "nope") ProcOutcome.ok := by
  refine ⟨by decide, by decide, by decide⟩

/-- C6 (amended): the exit statuses 0 (normal), 10 (unknown collection),
100 (unknown sample, via the generic top-level handler) and 200 (runtime
processing error) are pairwise distinct, but configuration/selection errors
are split over two different codes rather than sharing one. -/
theorem C6_exit_codes (available collSamples : List String) (coll sample : String)
    (optSample : Option String) (proc : ProcOutcome) :
    (coll ∉ available →
      mainExitCode available collSamples (some coll) optSample proc = 10) ∧
    (coll ∈ available → sample ≠ "all" → sample ∉ collSamples →
      mainExitCode available collSamples (some coll) (some sample) proc = 100) ∧
    (coll ∈ available → (sample = "all" ∨ sample ∈ collSamples) →
      mainExitCode available collSamples (some coll) (some sample)
        ProcOutcome.procError = 200) ∧
    (coll ∈ available → (sample = "all" ∨ sample ∈ collSamples) →
      mainExitCode available collSamples (some coll) (some sample)
        ProcOutcome.ok = 0) ∧
    ((0 : Nat) ≠ 10 ∧ (0 : Nat) ≠ 100 ∧ (0 : Nat) ≠ 200 ∧
      (10 : Nat) ≠ 100 ∧ (10 : Nat) ≠ 200 ∧ (100 : Nat) ≠ 200) := by
  refine ⟨?_, ?_, ?_, ?_, by omega⟩
  · intro h
    simp [mainExitCode, h]
  · intro h hall hsam
    simp [mainExitCode, h, hall, hsam]
  · intro h hsam
    rcases hsam with hsam | hsam
    · simp [mainExitCode, h, hsam]
    · by_cases hall : sample = "all"
      · simp [mainExitCode, h, hall]
      · simp [mainExitCode, h, hall, hsam]
  · intro h hsam
    rcases hsam with hsam | hsam
    · simp [mainExitCode, h, hsam]
    · by_cases hall : sample = "all"
      · simp [mainExitCode, h, hall]
      · simp [mainExitCode, h, hall, hsam]

/-- Witness for C6 (amended) at concrete configurations. -/
theorem C6_exit_codes_witness :
    mainExitCode ["tps"] ["ele"] (some "zzz") none ProcOutcome.ok = 10 ∧
    mainExitCode ["tps"] ["ele"] (some "tps") (some "zzz") ProcOutcome.ok = 100 ∧
    mainExitCode ["tps"] ["ele"] (some "tps") (some "ele") ProcOutcome.procError = 200 ∧
    mainExitCode ["tps"] ["ele"] (some "tps") (some "ele") ProcOutcome.ok = 0 := by
  have h := C6_exit_codes ["tps"] ["ele"] "zzz" "zzz" none ProcOutcome.ok
  have h2 := C6_exit_codes ["tps"] ["ele"] "tps" "zzz" (some "zzz") ProcOutcome.ok
  have h3 := C6_exit_codes ["tps"] ["ele"] "tps" "ele" (some "ele") ProcOutcome.procError
  have h4 := C6_exit_codes ["tps"] ["ele"] "tps" "ele" (some "ele") ProcOutcome.ok
  refine ⟨h.1 (by decide), h2.2.1 (by decide) (by decide) (by decide),
    h3.2.2.1 (by decide) (Or.inr (by decide)),
    h4.2.2.2.1 (by decide) (Or.inr (by decide))⟩

/-- C7: in an event loop that is not aborted, the trace decomposes into one
block per advanced event — so every unit runs on an event before the cursor
advances again and no advance is skipped or repeated — and within the block
of event `g` the plotter invocations are exactly one `fill` per registered
plotter, in registration order, all carrying the same event handle `g`. -/
theorem C7_plotter_order (cfg : DriverCfg) (events : List Nat)
    (hf : ∀ g ∈ events, cfg.failsAt g = false)
    (hb : ¬(cfg.batch_idx ≠ -1 ∧ cfg.started = true)) :
    (runLoop cfg events).1 = events.flatMap (eventBlock cfg) ∧
    ∀ g, (eventBlock cfg g).filter (DriverAction.isFillOf g) =
      (List.range cfg.nPlotters).map (fun p => DriverAction.fill g p) := by
  constructor
  · rw [runLoop_flatMap cfg events hf hb]
  · intro g
    have h1 : DriverAction.isFillOf g (DriverAction.read g) = false := rfl
    have h2 : ((List.range cfg.nPlotters).map (fun p => DriverAction.fill g p)).filter
        (DriverAction.isFillOf g) =
        (List.range cfg.nPlotters).map (fun p => DriverAction.fill g p) := by
      rw [List.filter_map]
      have : (DriverAction.isFillOf g ∘ fun p => DriverAction.fill g p) = fun _ => true := by
        funext p
        simp [DriverAction.isFillOf]
      rw [this]
      simp
    by_cases hc : g ≠ 0 ∧ g % 1000 = 0
    · simp [eventBlock, if_pos hc, List.filter_cons, List.filter_append, h1, h2,
        DriverAction.isFillOf]
    · simp [eventBlock, if_neg hc, List.filter_cons, List.filter_append, h1, h2,
        DriverAction.isFillOf]

/-- Witness for C7 at a concrete two-plotter interactive run. -/
theorem C7_plotter_order_witness :
    (runLoop ⟨2, -1, false, fun _ => false⟩ [0, 1]).1 =
      ([0, 1] : List Nat).flatMap (eventBlock ⟨2, -1, false, fun _ => false⟩) ∧
    (eventBlock ⟨2, -1, false, fun _ => false⟩ 1).filter (DriverAction.isFillOf 1) =
      (List.range 2).map (fun p => DriverAction.fill 1 p) := by
  have h := C7_plotter_order ⟨2, -1, false, fun _ => false⟩ [0, 1]
    (by intro g hg; rfl) (by simp)
  exact ⟨h.1, h.2 1⟩

theorem runLoop_no_guardEval (cfg : DriverCfg) (hs : cfg.started = false) :
    ∀ (events : List Nat) (g : Nat),
      DriverAction.guardEval g ∉ (runLoop cfg events).1 := by
  intro events
  induction events with
  | nil => intro g; simp [runLoop]
  | cons e rest ih =>
    intro g
    have harm : ¬(cfg.batch_idx ≠ -1 ∧ cfg.started = true) := by
      simp [hs]
    cases hf : cfg.failsAt e with
    | true =>
      simp [runLoop, loopBody, hf]
    | false =>
      have hblock : DriverAction.guardEval g ∉ eventBlock cfg e := by
        intro hmem
        simp only [eventBlock, List.mem_cons, List.mem_append, List.mem_map] at hmem
        rcases hmem with hmem | hmem | hmem
        · exact DriverAction.noConfusion hmem
        · obtain ⟨p, _, hp⟩ := hmem
          exact DriverAction.noConfusion hp
        · by_cases hc : e ≠ 0 ∧ e % 1000 = 0
          · rw [if_pos hc] at hmem
            simp at hmem
          · rw [if_neg hc] at hmem
            simp at hmem
      intro hmem
      rw [show runLoop cfg (e :: rest) =
          ((eventBlock cfg e ++ (runLoop cfg rest).1), (runLoop cfg rest).2) by
        simp [runLoop, loopBody_normal cfg e hf harm]] at hmem
      simp only [List.mem_append] at hmem
      rcases hmem with hmem | hmem
      · exact hblock hmem
      · exact ih g hmem

/-- C8: when the interpreter version string does not contain `'3.8'`, the
wall-clock timer is never started, so in every run — batch runs with job
index ≥ 0 included — the time-budget early-stop condition of line 276 is
never evaluated inside the event loop. -/
theorem C8_no_timer_no_guard (version : List Char)
    (hv : containsSubstr "3.8".toList version = false)
    (cfg : DriverCfg) (hs : cfg.started = timerStarted version)
    (events : List Nat) :
    timerStarted version = false ∧
    ∀ g, DriverAction.guardEval g ∉ (runDriver cfg events).1 := by
  have ht : timerStarted version = false := hv
  refine ⟨ht, ?_⟩
  intro g
  have hs0 : cfg.started = false := by rw [hs, ht]
  have hloop := runLoop_no_guardEval cfg hs0 events g
  intro hmem
  rcases hrl : runLoop cfg events with ⟨acts, ex⟩
  rw [hrl] at hloop
  cases ex with
  | some c =>
    rw [show runDriver cfg events = (acts, some c) by simp [runDriver, hrl]] at hmem
    exact hloop hmem
  | none =>
    rw [show runDriver cfg events =
        ((acts ++ [DriverAction.finalFlush, DriverAction.close]), none) by
      simp [runDriver, hrl]] at hmem
    simp only [List.mem_append] at hmem
    rcases hmem with hmem | hmem
    · exact hloop hmem
    · simp at hmem

/-- Witness for C8 on interpreter version 3.9.2 and a batch configuration. -/
theorem C8_no_timer_no_guard_witness :
    timerStarted "3.9.2".toList = false ∧
    DriverAction.guardEval 100 ∉
      (runDriver ⟨1, 0, timerStarted "3.9.2".toList, fun _ => false⟩ [0, 100]).1 := by
  have h := C8_no_timer_no_guard "3.9.2".toList (by decide)
    ⟨1, 0, timerStarted "3.9.2".toList, fun _ => false⟩ rfl [0, 100]
  exact ⟨h.1, h.2 100⟩

theorem filesWithProtocol_map (l : List (List Char)) :
    filesWithProtocol l = l.map addProtocol := by
  induction l with
  | nil => rfl
  | cons f rest ih => simp [filesWithProtocol, ih]

/-- C9: the opened path list has the same length and order as the discovered
file list, each name containing `/eos/user/` is prefixed with exactly
`root://eosuser.cern.ch/`, each name not containing `/eos/user/` but
containing `/eos/cms/` is prefixed with exactly `root://eoscms.cern.ch/`,
and every other name is opened unmodified. -/
theorem C9_protocol_rules (l : List (List Char)) :
    (filesWithProtocol l).length = l.length ∧
    (∀ i : Nat, (filesWithProtocol l)[i]? = Option.map addProtocol l[i]?) ∧
    (∀ name : List Char,
      (containsSubstr eosUserPat name = true →
        addProtocol name = eosUserProtocol ++ name) ∧
      (containsSubstr eosUserPat name = false →
        containsSubstr eosCmsPat name = true →
        addProtocol name = eosCmsProtocol ++ name) ∧
      (containsSubstr eosUserPat name = false →
        containsSubstr eosCmsPat name = false →
        addProtocol name = name)) := by
  refine ⟨?_, ?_, ?_⟩
  · rw [filesWithProtocol_map]
    exact List.length_map l addProtocol
  · intro i
    rw [filesWithProtocol_map]
    exact List.getElem?_map addProtocol l i
  · intro name
    refine ⟨?_, ?_, ?_⟩
    · intro h1
      simp [addProtocol, h1]
    · intro h1 h2
      simp [addProtocol, h1, h2]
    · intro h1 h2
      simp [addProtocol, h1, h2]

/-- Witness for C9 on one name per protocol case. -/
theorem C9_protocol_rules_witness :
    (filesWithProtocol ["/eos/user/k/a.root".toList, "/eos/cms/store/b.root".toList,
      "/data/c.root".toList]).length = 3 ∧
    addProtocol "/eos/user/k/a.root".toList =
      eosUserProtocol ++ "/eos/user/k/a.root".toList ∧
    addProtocol "/eos/cms/store/b.root".toList =
      eosCmsProtocol ++ "/eos/cms/store/b.root".toList ∧
    addProtocol "/data/c.root".toList = "/data/c.root".toList := by
  have h := C9_protocol_rules ["/eos/user/k/a.root".toList,
    "/eos/cms/store/b.root".toList, "/data/c.root".toList]
  refine ⟨h.1.trans (by decide), ?_, ?_, ?_⟩
  · exact (h.2.2 "/eos/user/k/a.root".toList).1 (by decide)
  · exact (h.2.2 "/eos/cms/store/b.root".toList).2.1 (by decide) (by decide)
  · exact (h.2.2 "/data/c.root".toList).2.2 (by decide) (by decide)

theorem dictLookup_eq_none {V : Type} (d : List (String × V)) (name : String)
    (h : name ∉ d.map Prod.fst) : dictLookup d name = none := by
  induction d with
  | nil => rfl
  | cons kv rest ih =>
    obtain ⟨k, v⟩ := kv
    simp only [List.map_cons, List.mem_cons] at h
    push_neg at h
    have hk : ¬(k = name) := fun he => h.1 he.symm
    simp [dictLookup, hk, ih h.2]

/-- C10: attribute access on a `Parameters` object for a name that is not a
stored key raises `KeyError` (never `AttributeError`), and for a stored key
it returns exactly the stored value. -/
theorem C10_getattr (V : Type) (d : List (String × V)) (name : String) :
    (name ∉ d.map Prod.fst →
      Parameters.getattr d name = Except.error (PyError.keyError name) ∧
      ∀ msg, Parameters.getattr d name ≠ Except.error (PyError.attributeError msg)) ∧
    (∀ v, dictLookup d name = some v → Parameters.getattr d name = Except.ok v) := by
  constructor
  · intro h
    have hl := dictLookup_eq_none d name h
    constructor
    · simp [Parameters.getattr, dict_getitem, hl]
    · intro msg hmsg
      simp [Parameters.getattr, dict_getitem, hl] at hmsg
  · intro v hv
    simp [Parameters.getattr, dict_getitem, hv]

/-- Witness for C10 on a concrete parameter dictionary. -/
theorem C10_getattr_witness :
    Parameters.getattr ([("maxEvents", 10)] : List (String × Nat)) "clusterize" =
      Except.error (PyError.keyError "clusterize") ∧
    Parameters.getattr ([("maxEvents", 10)] : List (String × Nat)) "maxEvents" =
      Except.ok 10 := by
  have h := C10_getattr Nat [("maxEvents", 10)] "clusterize"
  have h2 := C10_getattr Nat [("maxEvents", 10)] "maxEvents"
  exact ⟨(h.1 (by decide)).1, h2.2 10 (by decide)⟩
